import Mathlib

/-!
Verification development for the collaborative workspace and chat-websocket
subsystem of the TurboAlanRefinerBackend repository.

The Python source in app/core/workspace_manager.py and
app/core/chat_websocket.py is shallowly embedded below.  Effects are made
explicit: wall-clock reads (time.time) become a `now : Nat` argument,
uuid generation becomes a `msg_id`/`ws_id` argument, a raised ValueError
becomes `Except.error`, and Python dicts (insertion ordered) become
association lists with in-place update semantics.  MongoDB persistence and
the real-time callback hooks have no effect on the in-memory state that
the properties below speak about, so they are omitted from the state
transitions (they are try/except wrapped, best effort in the source).
-/

/-- Opaque string-keyed metadata map carried around by the source records. -/
abbrev Metadata := List (String × String)

/-- Characters removed by Python str.strip() for the ASCII range used here. -/
def pyIsSpace (c : Char) : Bool :=
  c = ' ' ∨ c = '\t' ∨ c = '\n' ∨ c = '\r' ∨ c = '\x0b' ∨ c = '\x0c'

/-- Python content.strip(): drop leading and trailing whitespace. -/
def pyStrip (s : String) : String :=
  ⟨(s.data.dropWhile pyIsSpace).reverse.dropWhile pyIsSpace |>.reverse⟩

/-- Python slice l[i:] for an arbitrary (possibly negative) integer index:
a negative index counts from the end, clamped at the start of the list. -/
def pySliceFrom (l : List α) (i : Int) : List α :=
  if i < 0 then l.drop (l.length - i.natAbs)
  else l.drop i.toNat

/-- Python truthiness of an Optional[int]: None and 0 are falsy. -/
def optIntTruthy : Option Int → Bool
  | none => false
  | some n => n ≠ 0

/-- Python truthiness of an Optional[str]: None and the empty string are falsy. -/
def optStrTruthy : Option String → Bool
  | none => false
  | some s => s ≠ ""

/-- Python truthiness of an Optional numeric timestamp (None and 0 are falsy),
as tested by chained boolean conditions in the source. -/
def optNatTruthy : Option Nat → Bool
  | none => false
  | some n => n ≠ 0

/-- Lookup in an insertion-ordered association list (a Python dict read). -/
def dictLookup : List (String × α) → String → Option α
  | [], _ => none
  | kv :: tl, k => if kv.1 = k then some kv.2 else dictLookup tl k

/-- Python `k in d` on a dict. -/
def dictContains (d : List (String × α)) (k : String) : Bool :=
  (dictLookup d k).isSome

/-- Python dict assignment d[k] = v: overwrite in place, else append. -/
def dictSet (d : List (String × α)) (k : String) (v : α) : List (String × α) :=
  if dictContains d k then
    d.map (fun kv => if kv.1 = k then (k, v) else kv)
  else
    d ++ [(k, v)]

/-- Python `del d[k]` on a dict. -/
def dictRemove (d : List (String × α)) (k : String) : List (String × α) :=
  d.filter (fun kv => kv.1 ≠ k)

/-- A Python set of strings, modelled as a duplicate-free list in insertion
order (Python set iteration order is unspecified; this is one order). -/
def setInsert (s : List String) (x : String) : List String :=
  if x ∈ s then s else s ++ [x]

/-- Python set.discard. -/
def setDiscard (s : List String) (x : String) : List String :=
  s.filter (fun y => y ≠ x)

/-- Python set(iterable): membership collapse of a list. -/
def setFromList (l : List String) : List String :=
  l.dedup

/-- Stable insertion used by the stable ascending sort below. -/
def insertByKey (key : α → Nat) (x : α) : List α → List α
  | [] => [x]
  | y :: ys => if key x ≤ key y then x :: y :: ys else y :: insertByKey key x ys

/-- Stable ascending sort by a Nat-valued key, modelling Python list.sort
with a key function (Timsort is stable; so is this insertion sort). -/
def sortByKey (key : α → Nat) : List α → List α
  | [] => []
  | x :: xs => insertByKey key x (sortByKey key xs)

/-- ChatMessage from workspace_manager.py: one conversation turn. -/
structure ChatMessage where
  id : String
  conversation_id : String
  sender_id : String
  role : String
  content : String
  timestamp : Nat
  metadata : Metadata := []
deriving DecidableEq, Repr

/-- DocumentContext from workspace_manager.py: a tracked file in a workspace. -/
structure DocumentContext where
  file_id : String
  job_id : Option String := none
  filename : String := ""
  file_type : String := ""
  current_pass : Nat := 0
  refined_content : Option String := none
  metadata : Metadata := []
deriving DecidableEq, Repr

/-- Workspace from workspace_manager.py: the collaborative session aggregate.
The documents dict is an insertion-ordered association list keyed by file_id. -/
structure Workspace where
  id : String
  name : String
  owner_id : String
  participants : List String
  messages : List ChatMessage
  documents : List (String × DocumentContext)
  active_document_id : Option String
  created_at : Nat
  updated_at : Nat
  max_messages : Nat
  metadata : Metadata
deriving DecidableEq

/-- The dataclass constructor followed by Workspace.__post_init__, which adds
the owner to the participant set. -/
def mkWorkspace (id name owner_id : String)
    (participants : List String := [])
    (messages : List ChatMessage := [])
    (documents : List (String × DocumentContext) := [])
    (active_document_id : Option String := none)
    (created_at : Nat := 0) (updated_at : Nat := 0)
    (max_messages : Nat := 100) (metadata : Metadata := []) : Workspace :=
  { id := id, name := name, owner_id := owner_id,
    participants := setInsert participants owner_id,
    messages := messages, documents := documents,
    active_document_id := active_document_id,
    created_at := created_at, updated_at := updated_at,
    max_messages := max_messages, metadata := metadata }

namespace Workspace

/-- Workspace.add_participant. -/
def add_participant (w : Workspace) (user_id : String) (now : Nat) :
    Bool × Workspace :=
  if user_id ∉ w.participants then
    (true, { w with participants := setInsert w.participants user_id,
                    updated_at := now })
  else
    (false, w)

/-- Workspace.remove_participant: the owner can never be removed. -/
def remove_participant (w : Workspace) (user_id : String) (now : Nat) :
    Bool × Workspace :=
  if user_id ≠ w.owner_id ∧ user_id ∈ w.participants then
    (true, { w with participants := setDiscard w.participants user_id,
                    updated_at := now })
  else
    (false, w)

/-- Workspace.is_participant. -/
def is_participant (w : Workspace) (user_id : String) : Bool :=
  user_id ∈ w.participants

/-- Workspace._trim_messages: keep all system-role messages plus the slice
other_messages[-keep_count:] of the rest, where keep_count may be zero or
negative (Python slice semantics apply). -/
def trim_messages (w : Workspace) : Workspace :=
  if w.messages.length > w.max_messages then
    let system_messages := w.messages.filter (fun m => m.role = "system")
    let other_messages := w.messages.filter (fun m => ¬ m.role = "system")
    let kept := pySliceFrom other_messages
      ((system_messages.length : Int) - (w.max_messages : Int))
    { w with messages := system_messages ++ kept }
  else
    w

/-- Workspace.add_message: raises ValueError on empty or whitespace-only
content; otherwise appends the trimmed-content message, bumps updated_at
and trims the list. -/
def add_message (w : Workspace) (sender_id role content : String)
    (metadata : Option Metadata) (msg_id : String) (now : Nat) :
    Except String (Workspace × ChatMessage) :=
  if content = "" ∨ pyStrip content = "" then
    Except.error "Message content cannot be empty"
  else
    let message : ChatMessage :=
      { id := msg_id, conversation_id := w.id, sender_id := sender_id,
        role := role, content := pyStrip content, timestamp := now,
        metadata := metadata.getD [] }
    let w' := trim_messages
      { w with messages := w.messages ++ [message], updated_at := now }
    Except.ok (w', message)

/-- Workspace.get_messages: the limit is tested for truthiness, and a truthy
limit produces the Python slice messages[-limit:]. -/
def get_messages (w : Workspace) (limit : Option Int) : List ChatMessage :=
  if optIntTruthy limit then
    pySliceFrom w.messages (-(limit.getD 0))
  else
    w.messages

/-- Workspace.add_document: inserts (overwriting any same-keyed entry) and
makes the document active when active_document_id is falsy. -/
def add_document (w : Workspace) (file_id filename file_type : String)
    (job_id : Option String) (now : Nat) : Workspace × DocumentContext :=
  let doc : DocumentContext :=
    { file_id := file_id, job_id := job_id, filename := filename,
      file_type := file_type }
  let w' :=
    { w with documents := dictSet w.documents file_id doc,
             active_document_id :=
               if ¬ optStrTruthy w.active_document_id then some file_id
               else w.active_document_id,
             updated_at := now }
  (w', doc)

/-- Workspace.get_active_document. -/
def get_active_document (w : Workspace) : Option DocumentContext :=
  if optStrTruthy w.active_document_id ∧
      dictContains w.documents (w.active_document_id.getD "") then
    dictLookup w.documents (w.active_document_id.getD "")
  else
    none

/-- Workspace.set_active_document: succeeds exactly on known document keys. -/
def set_active_document (w : Workspace) (file_id : String) (now : Nat) :
    Bool × Workspace :=
  if dictContains w.documents file_id then
    (true, { w with active_document_id := some file_id, updated_at := now })
  else
    (false, w)

/-- Workspace.clear_messages: drop every non-system message. -/
def clear_messages (w : Workspace) (now : Nat) : Workspace :=
  { w with messages := w.messages.filter (fun m => m.role = "system"),
           updated_at := now }

end Workspace

/-- The dictionary produced by ChatMessage.to_dict.  Every field is emitted,
so the dictionary carries exactly the record fields. -/
structure MessageDict where
  id : String
  conversation_id : String
  sender_id : String
  role : String
  content : String
  timestamp : Nat
  metadata : Metadata
deriving DecidableEq, Repr

/-- ChatMessage.to_dict. -/
def ChatMessage.to_dict (m : ChatMessage) : MessageDict :=
  { id := m.id, conversation_id := m.conversation_id,
    sender_id := m.sender_id, role := m.role, content := m.content,
    timestamp := m.timestamp, metadata := m.metadata }

/-- ChatMessage.from_dict.  The source uses data.get with defaults; on a
dictionary produced by to_dict every key is present, so each field is read
directly. -/
def ChatMessage.from_dict (d : MessageDict) : ChatMessage :=
  { id := d.id, conversation_id := d.conversation_id,
    sender_id := d.sender_id, role := d.role, content := d.content,
    timestamp := d.timestamp, metadata := d.metadata }

/-- The dictionary produced by DocumentContext.to_dict: refined_content is
truncated to 500 characters (None when falsy, i.e. None or empty). -/
structure DocDict where
  file_id : String
  job_id : Option String
  filename : String
  file_type : String
  current_pass : Nat
  refined_content : Option String
  metadata : Metadata
deriving DecidableEq, Repr

/-- DocumentContext.to_dict. -/
def DocumentContext.to_dict (d : DocumentContext) : DocDict :=
  { file_id := d.file_id, job_id := d.job_id, filename := d.filename,
    file_type := d.file_type, current_pass := d.current_pass,
    refined_content :=
      if optStrTruthy d.refined_content then
        (d.refined_content.getD "").take 500
      else none,
    metadata := d.metadata }

/-- The dictionary produced by Workspace.to_dict.  The participant set is
serialized as a list (Python set order is unspecified; Finset.toList is one
such order); max_messages is not serialized. -/
structure WorkspaceDict where
  id : String
  name : String
  owner_id : String
  participants : List String
  messages : List MessageDict
  documents : List (String × DocDict)
  active_document_id : Option String
  created_at : Nat
  updated_at : Nat
  metadata : Metadata

/-- Workspace.to_dict. -/
def Workspace.to_dict (w : Workspace) : WorkspaceDict :=
  { id := w.id, name := w.name, owner_id := w.owner_id,
    participants := w.participants,
    messages := w.messages.map ChatMessage.to_dict,
    documents := w.documents.map (fun kv => (kv.1, kv.2.to_dict)),
    active_document_id := w.active_document_id,
    created_at := w.created_at, updated_at := w.updated_at,
    metadata := w.metadata }

/-- Workspace.from_dict: constructs via the dataclass constructor (so
__post_init__ re-adds the owner to the participants), then restores the
messages and the documents; refined_content is not restored (the source
never reads it back), and max_messages takes the constructor default. -/
def Workspace.from_dict (d : WorkspaceDict) : Workspace :=
  let base := mkWorkspace d.id d.name d.owner_id (setFromList d.participants)
    [] [] none d.created_at d.updated_at 100 d.metadata
  { base with
      messages := d.messages.map ChatMessage.from_dict,
      documents := d.documents.map (fun kv =>
        (kv.1,
          { file_id := kv.2.file_id, job_id := kv.2.job_id,
            filename := kv.2.filename, file_type := kv.2.file_type,
            current_pass := kv.2.current_pass,
            refined_content := none,
            metadata := kv.2.metadata : DocumentContext })),
      active_document_id := d.active_document_id }

/-- WorkspaceManager: the in-memory registry (workspaces dict plus the
user_workspaces reverse index). -/
structure WorkspaceManager where
  workspaces : List (String × Workspace)
  user_workspaces : List (String × List String)
  max_workspaces_per_user : Nat
  max_total_workspaces : Nat
deriving DecidableEq

/-- WorkspaceManager.__init__. -/
def WorkspaceManager.init : WorkspaceManager :=
  { workspaces := [], user_workspaces := [],
    max_workspaces_per_user := 50, max_total_workspaces := 5000 }

namespace WorkspaceManager

/-- Add a workspace id to the reverse-index set of a user (set.add semantics). -/
def indexAdd (m : WorkspaceManager) (user_id ws_id : String) :
    WorkspaceManager :=
  let cur := (dictLookup m.user_workspaces user_id).getD []
  let cur' := if ws_id ∈ cur then cur else cur ++ [ws_id]
  { m with user_workspaces := dictSet m.user_workspaces user_id cur' }

/-- Remove a workspace id from the reverse-index set of a user when the user has
an entry (set.discard semantics). -/
def indexDiscard (m : WorkspaceManager) (user_id ws_id : String) :
    WorkspaceManager :=
  match dictLookup m.user_workspaces user_id with
  | none => m
  | some cur =>
      { m with user_workspaces :=
          dictSet m.user_workspaces user_id (cur.filter (fun i => i ≠ ws_id)) }

/-- WorkspaceManager.delete_workspace: only the owner may delete; on success
the id is scrubbed from the reverse-index entry of every participant and the
workspace is removed from the primary dict. -/
def delete_workspace (m : WorkspaceManager) (workspace_id user_id : String) :
    WorkspaceManager × Bool :=
  match dictLookup m.workspaces workspace_id with
  | none => (m, false)
  | some w =>
      if w.owner_id ≠ user_id then (m, false)
      else
        let m1 := w.participants.foldl
          (fun acc pid => indexDiscard acc pid workspace_id) m
        ({ m1 with workspaces := dictRemove m1.workspaces workspace_id }, true)

/-- WorkspaceManager._cleanup_if_needed.  Per-user: when the
reverse-index set exceeds max_workspaces_per_user, the resident workspaces
of that set are sorted by updated_at ascending and the oldest
(overflow + 5) are deleted via delete_workspace, owned ones only.  The
global branch force-evicts the oldest (overflow + 100) when the primary
dict exceeds max_total_workspaces. -/
def cleanup_if_needed (m : WorkspaceManager) (user_id : String) :
    WorkspaceManager :=
  let user_ws_ids := (dictLookup m.user_workspaces user_id).getD []
  let m1 :=
    if user_ws_ids.length > m.max_workspaces_per_user then
      let user_workspaces :=
        user_ws_ids.filterMap (fun i => dictLookup m.workspaces i)
      let sorted := sortByKey (fun w => w.updated_at) user_workspaces
      let remove_count :=
        user_workspaces.length - m.max_workspaces_per_user + 5
      (sorted.take remove_count).foldl
        (fun acc w =>
          if w.owner_id = user_id then (delete_workspace acc w.id user_id).1
          else acc) m
    else m
  if m1.workspaces.length > m1.max_total_workspaces then
    let all_sorted := sortByKey (fun kv => kv.2.updated_at) m1.workspaces
    let remove_count := m1.workspaces.length - m1.max_total_workspaces + 100
    (all_sorted.take remove_count).foldl
      (fun acc kv =>
        let acc1 := kv.2.participants.foldl
          (fun a uid =>
            if dictContains a.user_workspaces uid then indexDiscard a uid kv.1
            else a) acc
        { acc1 with workspaces := dictRemove acc1.workspaces kv.1 }) m1
  else m1

/-- WorkspaceManager.create_workspace: register the new workspace in both
indices, then run the capacity cleanup for the owner.  The uuid and the
timestamp-derived default name are passed in explicitly; the MongoDB
auto-save is best effort and does not change the in-memory state. -/
def create_workspace (m : WorkspaceManager) (owner_id : String)
    (name : Option String) (workspace_id : Option String)
    (fresh_id : String) (now : Nat) : WorkspaceManager × Workspace :=
  let ws_id := workspace_id.getD fresh_id
  let ws_name := name.getD ("Workspace " ++ toString now)
  let workspace := mkWorkspace ws_id ws_name owner_id ∅ [] [] none now now
  let m1 := { m with workspaces := dictSet m.workspaces ws_id workspace }
  let m2 := indexAdd m1 owner_id ws_id
  (cleanup_if_needed m2 owner_id, workspace)

/-- WorkspaceManager.add_message on a resident workspace (the MongoDB lazy
load only applies to non-resident ids): None when the workspace is missing
or when the participant gate rejects the sender; the Workspace-level
ValueError propagates as Except.error. -/
def add_message (m : WorkspaceManager) (workspace_id sender_id role content :
    String) (metadata : Option Metadata) (msg_id : String) (now : Nat) :
    Except String (WorkspaceManager × Option ChatMessage) :=
  match dictLookup m.workspaces workspace_id with
  | none => Except.ok (m, none)
  | some workspace =>
      if sender_id ≠ "system" ∧ role ≠ "assistant" ∧
          ¬ workspace.is_participant sender_id then
        Except.ok (m, none)
      else
        match workspace.add_message sender_id role content metadata msg_id
            now with
        | Except.error e => Except.error e
        | Except.ok (w', message) =>
            Except.ok
              ({ m with workspaces := dictSet m.workspaces workspace_id w' },
                some message)

end WorkspaceManager

/-!
Embedding of app/core/chat_websocket.py.  A live WebSocket is identified by
a socket number; whether a send on it raises is modelled by a `sendOk`
predicate on socket numbers (a dead peer fails every send).  Broadcasts are
driven by that predicate; a failed send adds the presence to the
disconnected list, and each such presence is run through disconnect after
the loop, which itself broadcasts a presence update and prunes recursively.
That recursion terminates because the registry only shrinks; it is embedded
with an explicit fuel argument, instantiated generously at the call site.
-/

/-- UserPresence from chat_websocket.py; the websocket handle is the socket
number. -/
structure UserPresence where
  user_id : String
  workspace_id : String
  socket : Nat
  connected_at : Nat := 0
  last_activity : Nat := 0
  is_typing : Bool := false
  typing_started_at : Option Nat := none
deriving DecidableEq, Repr

/-- ChatWebSocketManager state: connections dict plus the user_connections
reverse index. -/
structure CWSState where
  connections : List (String × List UserPresence)
  user_connections : List (String × List String)
deriving DecidableEq, Repr

/-- The typing indicator timeout set in ChatWebSocketManager.__init__. -/
def typing_timeout : Nat := 5

/-- The connection list the manager holds for a workspace ([] when absent). -/
def getConns (st : CWSState) (workspace_id : String) : List UserPresence :=
  (dictLookup st.connections workspace_id).getD []

/-- The registry mutation inside ChatWebSocketManager.disconnect: remove the
matching (user_id, websocket) presence, drop the workspace key when its list
empties, and scrub the reverse index when the user has no remaining
connection to this workspace. -/
def registryRemove (st : CWSState) (workspace_id user_id : String)
    (socket : Nat) : CWSState :=
  let st1 :=
    if dictContains st.connections workspace_id then
      let remaining := (getConns st workspace_id).filter
        (fun p => ¬ (p.user_id = user_id ∧ p.socket = socket))
      if remaining = [] then
        { st with connections := dictRemove st.connections workspace_id }
      else
        { st with connections :=
            dictSet st.connections workspace_id remaining }
    else st
  if dictContains st1.user_connections user_id then
    let still_connected :=
      (getConns st1 workspace_id).any (fun p => p.user_id = user_id)
    if ¬ still_connected then
      let pruned := ((dictLookup st1.user_connections user_id).getD
        []).filter (fun i => i ≠ workspace_id)
      let st2 :=
        { st1 with user_connections :=
            dictSet st1.user_connections user_id pruned }
      if (dictLookup st2.user_connections user_id).getD [] = [] then
        let scrubbed := dictRemove st2.user_connections user_id
        { st2 with user_connections := scrubbed }
      else st2
    else st1
  else st1

/-- The post-broadcast cleanup loop: run ChatWebSocketManager.disconnect on
each collected presence in order.  Each disconnect is the registry removal
followed by the "left" presence broadcast, whose own failed sends are
collected and pruned recursively by the same loop.  The real recursion is
finite because every step removes a connection; here an explicit fuel
bounds the depth and is instantiated generously at the call site. -/
def pruneLoop (sendOk : Nat → Bool) :
    Nat → CWSState → String → List UserPresence → CWSState
  | 0, st, _, _ => st
  | _ + 1, st, _, [] => st
  | fuel + 1, st, workspace_id, p :: rest =>
      -- disconnect(workspace_id, p.user_id, p.websocket):
      let st1 := registryRemove st workspace_id p.user_id p.socket
      -- broadcast_presence_update: nothing to send when the key is gone
      let st2 :=
        if ¬ dictContains st1.connections workspace_id then st1
        else pruneLoop sendOk fuel st1 workspace_id
          ((getConns st1 workspace_id).filter (fun q => ¬ sendOk q.socket))
      pruneLoop sendOk fuel st2 workspace_id rest

/-- ChatWebSocketManager.disconnect as a standalone operation: the cons
step of pruneLoop performs exactly this on its head presence. -/
def disconnect (sendOk : Nat → Bool) (fuel : Nat) (st : CWSState)
    (workspace_id user_id : String) (socket : Nat) : CWSState :=
  let st1 := registryRemove st workspace_id user_id socket
  if ¬ dictContains st1.connections workspace_id then st1
  else pruneLoop sendOk fuel st1 workspace_id
    ((getConns st1 workspace_id).filter (fun q => ¬ sendOk q.socket))

/-- ChatWebSocketManager.broadcast_message with no excluded user: send the
payload to every connection in the snapshot, collect the failing ones, then
disconnect each of them.  Returns the presences that received the payload
together with the final state; fuel for the disconnect cascade exceeds the
number of collected connections, so it is never exhausted. -/
def broadcastMessage (sendOk : Nat → Bool) (st : CWSState)
    (workspace_id : String) : List UserPresence × CWSState :=
  if ¬ dictContains st.connections workspace_id then ([], st)
  else
    let snapshot := getConns st workspace_id
    let delivered := snapshot.filter (fun p => sendOk p.socket)
    let disconnected := snapshot.filter (fun p => ¬ sendOk p.socket)
    (delivered,
      pruneLoop sendOk (snapshot.length + 1) st workspace_id disconnected)

/-- ChatWebSocketManager.get_online_users: the set of user ids with a live
connection to the workspace (the source accumulates a Python set and
returns it as a list in unspecified order). -/
def getOnlineUsers (st : CWSState) (workspace_id : String) : Finset String :=
  ((getConns st workspace_id).map (fun p => p.user_id)).toFinset

/-- ChatWebSocketManager.get_typing_users: a presence counts as typing when
is_typing is set, typing_started_at is truthy, and strictly less than
typing_timeout seconds have elapsed (evaluated at read time). -/
def getTypingUsers (st : CWSState) (workspace_id : String) (now : Nat) :
    Finset String :=
  (((getConns st workspace_id).filter
    (fun p => p.is_typing ∧ optNatTruthy p.typing_started_at ∧
      now - (p.typing_started_at.getD 0) < typing_timeout)).map
    (fun p => p.user_id)).toFinset

/-! Basic facts about the embedding helpers. -/

theorem pyStrip_empty : pyStrip "" = "" := rfl

theorem dictContains_cons_iff (kv : String × α) (tl : List (String × α))
    (k : String) :
    dictContains (kv :: tl) k = true ↔
      (kv.1 = k ∨ dictContains tl k = true) := by
  by_cases hk : kv.1 = k <;> simp [dictContains, dictLookup, hk]

theorem dictLookup_append_self (d : List (String × α)) (k : String) (v : α)
    (h : ¬ dictContains d k = true) : dictLookup (d ++ [(k, v)]) k = some v := by
  induction d with
  | nil => simp [dictLookup]
  | cons kv tl ih =>
      have hk : ¬ kv.1 = k := fun hc =>
        h ((dictContains_cons_iff kv tl k).mpr (Or.inl hc))
      have ht : ¬ dictContains tl k = true := fun hc =>
        h ((dictContains_cons_iff kv tl k).mpr (Or.inr hc))
      simp only [List.cons_append, dictLookup, hk, if_false]
      exact ih ht

theorem dictLookup_set_self (d : List (String × α)) (k : String) (v : α) :
    dictLookup (dictSet d k v) k = some v := by
  induction d with
  | nil => simp [dictSet, dictContains, dictLookup]
  | cons kv tl ih =>
      by_cases hc : dictContains (kv :: tl) k = true
      · unfold dictSet
        rw [if_pos hc]
        by_cases hk : kv.1 = k
        · simp [dictLookup, hk]
        · simp only [List.map_cons, if_neg hk]
          rw [dictLookup, if_neg hk]
          have ht : dictContains tl k = true := by
            rcases (dictContains_cons_iff kv tl k).mp hc with h | h
            · exact absurd h hk
            · exact h
          unfold dictSet at ih
          rw [if_pos ht] at ih
          exact ih
      · unfold dictSet
        rw [if_neg hc]
        exact dictLookup_append_self _ _ _ hc

/-- Claim C7: Workspace.add_message raises exactly on content that is empty
or whitespace-only after trimming, and on success the stored message
content is the input with leading and trailing whitespace removed. -/
theorem add_message_validates_and_trims (w : Workspace)
    (sender_id role content : String) (metadata : Option Metadata)
    (msg_id : String) (now : Nat) :
    ((w.add_message sender_id role content metadata msg_id now).isOk = false
      ↔ pyStrip content = "")
    ∧ (w.add_message sender_id role content metadata msg_id now).toOption.map
        (fun r => r.2.content)
      = (if pyStrip content = "" then none else some (pyStrip content)) := by
  unfold Workspace.add_message
  by_cases hs : pyStrip content = ""
  · have h : content = "" ∨ pyStrip content = "" := Or.inr hs
    rw [if_pos h]
    simp [hs, Except.isOk, Except.toBool, Except.toOption]
  · have h : ¬ (content = "" ∨ pyStrip content = "") := by
      rintro (hc | hc)
      · exact hs (by rw [hc]; exact pyStrip_empty)
      · exact hs hc
    rw [if_neg h]
    simp [hs, Except.isOk, Except.toBool, Except.toOption]

/-- Claim C8: for every file_id (the empty string included),
set_active_document returns true, records the key in active_document_id
and the call time in updated_at exactly when file_id is a key of the
documents map; for any unknown file_id it returns false and leaves the
workspace unchanged.  The embedded operation is a total function: the
source has no raise path. -/
theorem set_active_document_spec (w : Workspace) (file_id : String)
    (now : Nat) :
    ((w.set_active_document file_id now).1 = true ↔
      dictContains w.documents file_id = true)
    ∧ ((w.set_active_document file_id now).2 =
        (if dictContains w.documents file_id then
          { w with active_document_id := some file_id, updated_at := now }
        else w)) := by
  constructor
  · unfold Workspace.set_active_document
    by_cases h : dictContains w.documents file_id = true <;> simp [h]
  · unfold Workspace.set_active_document
    by_cases h : dictContains w.documents file_id = true <;> simp [h]

/-- Claim C10: get_messages with limit 0 (or None) returns the whole list,
because the limit is tested for truthiness; a positive limit returns the
last limit messages. -/
theorem get_messages_limit_zero (w : Workspace) :
    w.get_messages (some 0) = w.messages
    ∧ w.get_messages none = w.messages
    ∧ (∀ k : Nat, w.get_messages (some ((k + 1 : Nat) : Int))
        = w.messages.drop (w.messages.length - (k + 1))) := by
  refine ⟨?_, ?_, ?_⟩
  · unfold Workspace.get_messages
    simp [optIntTruthy]
  · unfold Workspace.get_messages
    simp [optIntTruthy]
  · intro k
    unfold Workspace.get_messages
    have ht : optIntTruthy (some ((k + 1 : Nat) : Int)) = true := by
      simp only [optIntTruthy, ne_eq, decide_eq_true_eq]
      omega
    simp only [ht, if_true, Option.getD_some]
    unfold pySliceFrom
    have hneg : -((k + 1 : Nat) : Int) < 0 := by
      omega
    simp only [hneg, if_true]
    have hab : (-((k + 1 : Nat) : Int)).natAbs = k + 1 := by
      omega
    rw [hab]

theorem mem_setInsert_self (s : List String) (x : String) :
    x ∈ setInsert s x := by
  unfold setInsert
  by_cases h : x ∈ s
  · rw [if_pos h]
    exact h
  · rw [if_neg h]
    simp

theorem mem_setInsert_of_mem {s : List String} {a x : String} (h : a ∈ s) :
    a ∈ setInsert s x := by
  unfold setInsert
  by_cases hx : x ∈ s
  · rw [if_pos hx]
    exact h
  · rw [if_neg hx]
    exact List.mem_append_left _ h

theorem mem_setDiscard_of_ne {s : List String} {a x : String} (h : a ∈ s)
    (hne : a ≠ x) : a ∈ setDiscard s x := by
  unfold setDiscard
  rw [List.mem_filter]
  exact ⟨h, by simpa using hne⟩

/-- Workspaces constructible through the public surface of the source: the
dataclass constructor (with __post_init__), from_dict, and the mutating
methods. -/
inductive ReachedWorkspace : Workspace → Prop
  | construct (id name owner_id : String) (ps : List String)
      (ms : List ChatMessage) (ds : List (String × DocumentContext))
      (act : Option String) (c u mm : Nat) (md : Metadata) :
      ReachedWorkspace (mkWorkspace id name owner_id ps ms ds act c u mm md)
  | from_dict (d : WorkspaceDict) : ReachedWorkspace (Workspace.from_dict d)
  | add_participant (w : Workspace) (u : String) (now : Nat) :
      ReachedWorkspace w → ReachedWorkspace (w.add_participant u now).2
  | remove_participant (w : Workspace) (u : String) (now : Nat) :
      ReachedWorkspace w → ReachedWorkspace (w.remove_participant u now).2
  | add_message (w w' : Workspace) (s r c : String) (md : Option Metadata)
      (i : String) (n : Nat) (m : ChatMessage) :
      ReachedWorkspace w → w.add_message s r c md i n = Except.ok (w', m) →
      ReachedWorkspace w'
  | add_document (w : Workspace) (f fn ft : String) (j : Option String)
      (now : Nat) :
      ReachedWorkspace w → ReachedWorkspace (w.add_document f fn ft j now).1
  | set_active_document (w : Workspace) (f : String) (now : Nat) :
      ReachedWorkspace w → ReachedWorkspace (w.set_active_document f now).2
  | clear_messages (w : Workspace) (now : Nat) :
      ReachedWorkspace w → ReachedWorkspace (w.clear_messages now)

theorem trim_messages_participants (w : Workspace) :
    (Workspace.trim_messages w).participants = w.participants ∧
      (Workspace.trim_messages w).owner_id = w.owner_id := by
  unfold Workspace.trim_messages
  by_cases h : w.messages.length > w.max_messages <;> simp [h]

theorem trim_messages_owner_mem (v : Workspace)
    (h : v.owner_id ∈ v.participants) :
    (Workspace.trim_messages v).owner_id ∈
      (Workspace.trim_messages v).participants := by
  rcases trim_messages_participants v with ⟨h1, h2⟩
  rw [h1, h2]
  exact h

/-- Claim C4: every constructible workspace keeps its owner among the
participants, and remove_participant on the owner always fails without
changing the workspace. -/
theorem owner_always_participant (w : Workspace) (now : Nat) :
    (ReachedWorkspace w → w.owner_id ∈ w.participants)
    ∧ w.remove_participant w.owner_id now = (false, w) := by
  constructor
  · intro hw
    induction hw with
    | construct id name owner_id ps ms ds act c u mm md =>
        exact mem_setInsert_self ps owner_id
    | from_dict d =>
        exact mem_setInsert_self (setFromList d.participants) d.owner_id
    | add_participant w u now hw ih =>
        unfold Workspace.add_participant
        by_cases h : u ∉ w.participants
        · rw [if_pos h]
          exact mem_setInsert_of_mem ih
        · rw [if_neg h]
          exact ih
    | remove_participant w u now hw ih =>
        unfold Workspace.remove_participant
        by_cases h : u ≠ w.owner_id ∧ u ∈ w.participants
        · rw [if_pos h]
          exact mem_setDiscard_of_ne ih (fun hc => h.1 hc.symm)
        · rw [if_neg h]
          exact ih
    | add_message w w' s r c md i n m hw heq ih =>
        unfold Workspace.add_message at heq
        by_cases h : c = "" ∨ pyStrip c = ""
        · rw [if_pos h] at heq
          exact absurd heq (by simp)
        · rw [if_neg h] at heq
          simp only [Except.ok.injEq, Prod.mk.injEq] at heq
          obtain ⟨hw', hm⟩ := heq
          rw [← hw']
          exact trim_messages_owner_mem _ ih
    | add_document w f fn ft j now hw ih =>
        simp only [Workspace.add_document]
        exact ih
    | set_active_document w f now hw ih =>
        unfold Workspace.set_active_document
        by_cases h : dictContains w.documents f = true <;> simp [h, ih]
    | clear_messages w now hw ih =>
        simp only [Workspace.clear_messages]
        exact ih
  · unfold Workspace.remove_participant
    simp

/-- Witness: a freshly constructed workspace containing its owner, and the
owner removal failing on it. -/
theorem owner_always_participant_witness :
    ("alice" ∈ (mkWorkspace "W" "n" "alice").participants)
    ∧ (mkWorkspace "W" "n" "alice").remove_participant "alice" 5
      = (false, mkWorkspace "W" "n" "alice") := by
  have h := owner_always_participant (mkWorkspace "W" "n" "alice") 5
  exact ⟨h.1 (ReachedWorkspace.construct "W" "n" "alice" ∅ [] [] none 0 0
    100 []), h.2⟩

/-- Claim C5: from_dict after to_dict reproduces the id, name, owner, the
participant set, the full message sequence, and the document entries up to
the serialized projection (file_id, filename, file_type). -/
theorem workspace_roundtrip (w : Workspace)
    (h : w.owner_id ∈ w.participants) :
    (Workspace.from_dict w.to_dict).id = w.id
    ∧ (Workspace.from_dict w.to_dict).name = w.name
    ∧ (Workspace.from_dict w.to_dict).owner_id = w.owner_id
    ∧ (Workspace.from_dict w.to_dict).participants.toFinset
      = w.participants.toFinset
    ∧ (Workspace.from_dict w.to_dict).messages = w.messages
    ∧ (Workspace.from_dict w.to_dict).documents.map
        (fun kv => (kv.1, kv.2.file_id, kv.2.filename, kv.2.file_type))
      = w.documents.map
        (fun kv => (kv.1, kv.2.file_id, kv.2.filename, kv.2.file_type)) := by
  refine ⟨rfl, rfl, rfl, ?_, ?_, ?_⟩
  · show (setInsert (setFromList w.participants) w.owner_id).toFinset
      = w.participants.toFinset
    have hmem : w.owner_id ∈ setFromList w.participants :=
      List.mem_dedup.mpr h
    unfold setInsert
    rw [if_pos hmem]
    unfold setFromList
    ext x
    simp [List.mem_dedup]
  · show (w.messages.map ChatMessage.to_dict).map ChatMessage.from_dict
      = w.messages
    rw [List.map_map]
    have : ChatMessage.from_dict ∘ ChatMessage.to_dict = id := by
      funext m
      rfl
    rw [this, List.map_id]
  · show ((w.documents.map (fun kv => (kv.1, kv.2.to_dict))).map _).map _
      = _
    rw [List.map_map, List.map_map]
    rfl

/-- Witness: round-trip on a small concrete workspace with a message and a
document. -/
theorem workspace_roundtrip_witness :
    (Workspace.from_dict (mkWorkspace "W" "n" "alice" ["bob"]
      [{ id := "m", conversation_id := "W", sender_id := "bob",
         role := "user", content := "hi", timestamp := 4 }]
      [("f", { file_id := "f", filename := "a.txt",
               file_type := "txt" })]).to_dict).participants.toFinset
      = (mkWorkspace "W" "n" "alice" ["bob"]
      [{ id := "m", conversation_id := "W", sender_id := "bob",
         role := "user", content := "hi", timestamp := 4 }]
      [("f", { file_id := "f", filename := "a.txt",
               file_type := "txt" })]).participants.toFinset
    ∧ (Workspace.from_dict (mkWorkspace "W" "n" "alice" ["bob"]
      [{ id := "m", conversation_id := "W", sender_id := "bob",
         role := "user", content := "hi", timestamp := 4 }]
      [("f", { file_id := "f", filename := "a.txt",
               file_type := "txt" })]).to_dict).messages
      = (mkWorkspace "W" "n" "alice" ["bob"]
      [{ id := "m", conversation_id := "W", sender_id := "bob",
         role := "user", content := "hi", timestamp := 4 }]
      [("f", { file_id := "f", filename := "a.txt",
               file_type := "txt" })]).messages := by
  have h := workspace_roundtrip (mkWorkspace "W" "n" "alice" ["bob"]
      [{ id := "m", conversation_id := "W", sender_id := "bob",
         role := "user", content := "hi", timestamp := 4 }]
      [("f", { file_id := "f", filename := "a.txt",
               file_type := "txt" })]) (by decide)
  exact ⟨h.2.2.2.1, h.2.2.2.2.1⟩

/-- A compact message constructor for the trim scenarios. -/
def c1msg (r c : String) (t : Nat) : ChatMessage :=
  { id := toString t, conversation_id := "W", sender_id := "a", role := r,
    content := c, timestamp := t }

/-- A workspace at its two-message capacity holding two user messages. -/
def wC1 : Workspace :=
  mkWorkspace "W" "n" "a" ∅ [c1msg "user" "u1" 1, c1msg "user" "u2" 2]
    [] none 0 0 2 []

/-- Claim C1 counterexample: adding a system message to a full workspace
produces the list [system, u2], which is not a subsequence of the original
order [u1, u2, system] — the trim moves system messages in front of the
retained non-system messages instead of keeping the original relative
order. -/
theorem trim_reorders_counterexample :
    (wC1.add_message "a" "system" "s1" none "3" 3).toOption.map
        (fun r => r.1.messages)
      = some [c1msg "system" "s1" 3, c1msg "user" "u2" 2]
    ∧ ¬ [c1msg "system" "s1" 3, c1msg "user" "u2" 2].Sublist
        (wC1.messages ++ [c1msg "system" "s1" 3]) := by
  decide


theorem length_filter_role (L : List ChatMessage) :
    (L.filter (fun m => m.role = "system")).length +
      (L.filter (fun m => ¬ m.role = "system")).length = L.length := by
  have hnot : (fun m : ChatMessage => decide (¬ m.role = "system"))
      = fun m : ChatMessage => !(decide (m.role = "system")) := by
    funext m
    exact decide_not
  have h := @List.length_eq_length_filter_add ChatMessage L
    (fun m => decide (m.role = "system"))
  simp only [hnot]
  omega

theorem trim_messages_spec (v : Workspace)
    (hsys : ((v.messages.filter (fun m => m.role = "system")).length)
      < v.max_messages)
    (hlen : v.messages.length > v.max_messages) :
    (Workspace.trim_messages v).messages =
      v.messages.filter (fun m => m.role = "system") ++
        (v.messages.filter (fun m => ¬ m.role = "system")).drop
          ((v.messages.filter (fun m => ¬ m.role = "system")).length
            - (v.max_messages
              - (v.messages.filter (fun m => m.role = "system")).length))
    ∧ (Workspace.trim_messages v).messages.length = v.max_messages := by
  unfold Workspace.trim_messages
  rw [if_pos hlen]
  have hneg :
      (((v.messages.filter (fun m => m.role = "system")).length : Int)
        - (v.max_messages : Int)) < 0 := by
    omega
  have hab :
      ((((v.messages.filter (fun m => m.role = "system")).length : Int)
        - (v.max_messages : Int))).natAbs
      = v.max_messages
        - (v.messages.filter (fun m => m.role = "system")).length := by
    omega
  constructor
  · show v.messages.filter (fun m => m.role = "system") ++
      pySliceFrom (v.messages.filter (fun m => ¬ m.role = "system")) _ = _
    unfold pySliceFrom
    rw [if_pos hneg, hab]
  · show (v.messages.filter (fun m => m.role = "system") ++
      pySliceFrom (v.messages.filter (fun m => ¬ m.role = "system"))
        _).length = _
    unfold pySliceFrom
    rw [if_pos hneg, hab]
    rw [List.length_append, List.length_drop]
    have hc := length_filter_role v.messages
    omega

/-- Claim C1 amended: when a successful add_message overflows max_messages
and there are fewer system messages than max_messages, the resulting list
is all system messages (in their relative order) followed by the most
recent (max_messages minus the system count) non-system messages (in their
relative order), and its length is exactly max_messages.  The concatenation
places system messages first, so the global original relative order is not
preserved in general (see the counterexample). -/
theorem trim_amended (w w' : Workspace) (sender role content : String)
    (md : Option Metadata) (mid : String) (now : Nat) (msg : ChatMessage)
    (hok : w.add_message sender role content md mid now
      = Except.ok (w', msg))
    (hsys : (((w.messages ++ [msg]).filter
      (fun m => m.role = "system")).length) < w.max_messages)
    (hlen : (w.messages ++ [msg]).length > w.max_messages) :
    w'.messages =
      (w.messages ++ [msg]).filter (fun m => m.role = "system") ++
        ((w.messages ++ [msg]).filter (fun m => ¬ m.role = "system")).drop
          (((w.messages ++ [msg]).filter
              (fun m => ¬ m.role = "system")).length
            - (w.max_messages - ((w.messages ++ [msg]).filter
                (fun m => m.role = "system")).length))
    ∧ w'.messages.length = w.max_messages := by
  unfold Workspace.add_message at hok
  by_cases h : content = "" ∨ pyStrip content = ""
  · rw [if_pos h] at hok
    exact absurd hok (by simp)
  · rw [if_neg h] at hok
    simp only [Except.ok.injEq, Prod.mk.injEq] at hok
    obtain ⟨hw', hmsg⟩ := hok
    subst hmsg
    rw [← hw']
    exact trim_messages_spec _ hsys hlen

/-- Witness for trim_amended: the concrete overflow scenario evaluated. -/
theorem trim_amended_witness :
    ([c1msg "system" "s1" 3, c1msg "user" "u2" 2] : List ChatMessage) =
      (wC1.messages ++ [c1msg "system" "s1" 3]).filter
          (fun m => m.role = "system") ++
        ((wC1.messages ++ [c1msg "system" "s1" 3]).filter
            (fun m => ¬ m.role = "system")).drop
          (((wC1.messages ++ [c1msg "system" "s1" 3]).filter
              (fun m => ¬ m.role = "system")).length
            - (wC1.max_messages
              - ((wC1.messages ++ [c1msg "system" "s1" 3]).filter
                  (fun m => m.role = "system")).length))
    ∧ ([c1msg "system" "s1" 3, c1msg "user" "u2" 2] : List ChatMessage).length
      = wC1.max_messages := by
  have h := trim_amended wC1
    { wC1 with messages := [c1msg "system" "s1" 3, c1msg "user" "u2" 2],
               updated_at := 3 }
    "a" "system" "s1" none "3" 3 (c1msg "system" "s1" 3)
    (by rfl) (by decide) (by decide)
  exact h

/-- One step of the claim C2 scenario: the i-th create_workspace call for
the same owner, with explicit id and the logical clock at i. -/
def c2Step (m : WorkspaceManager) (i : Nat) : WorkspaceManager :=
  (m.create_workspace "owner" none (some ("w" ++ toString i)) "unused" i).1

/-- The manager after 60 create_workspace calls for one owner. -/
def c2Final : WorkspaceManager :=
  (List.range 60).foldl c2Step WorkspaceManager.init

set_option maxRecDepth 40000 in
/-- Claim C2 counterexample: after the 60 creations only 48 workspaces are
resident (not 50) and workspace w10 — the 11th oldest, outside the 10
oldest — has been evicted, because the cleanup deletes overflow + 5 = 6
workspaces and runs twice (after the 51st and 57th creation). -/
theorem eviction_counterexample :
    c2Final.workspaces.length = 48
    ∧ dictContains c2Final.workspaces "w10" = false := by
  decide

set_option maxRecDepth 40000 in
/-- Claim C2 amended: with max_workspaces_per_user = 50, sixty creations by
one owner trigger the per-user cleanup twice (after the 51st and the 57th
call), each round deleting overflow + 5 = 6 workspaces, so exactly the 12
oldest-by-updated_at are removed, the owner is left with 48 resident
workspaces (at most 50), and every evicted workspace was owned by that
user (all workspaces here are). -/
theorem eviction_amended :
    c2Final.workspaces.map (fun kv => kv.1)
      = ((List.range 60).drop 12).map (fun i => "w" ++ toString i)
    ∧ c2Final.workspaces.length = 48
    ∧ (dictLookup c2Final.user_workspaces "owner").getD []
      = ((List.range 60).drop 12).map (fun i => "w" ++ toString i)
    ∧ c2Final.workspaces.all (fun kv => kv.2.owner_id = "owner") := by
  decide

/-- A manager holding one workspace W owned by alice. -/
def c3Mgr : WorkspaceManager :=
  (WorkspaceManager.init.create_workspace "alice" (some "N") (some "W")
    "unused" 0).1

/-- Claim C3 counterexample: with the workspace resident and the sender a
participant (so the authorization gate passes), empty content makes
manager-level add_message raise the validation error — it neither returns
absent nor appends, refuting "in every other case it appends". -/
theorem auth_gate_counterexample :
    (dictLookup c3Mgr.workspaces "W").map (fun w => w.is_participant "alice")
      = some true
    ∧ (c3Mgr.add_message "W" "alice" "user" "" none "m1" 1).isOk = false := by
  decide

/-- Claim C3 amended: on a resident workspace, manager-level add_message
returns absent (ok with no message, no state change) exactly when the
sender is not "system", the role is not "assistant", and the sender is not
a participant; when the gate passes and the content is non-empty after
trimming it appends via Workspace.add_message and stores the trimmed
content, and when the gate passes but the content is empty it raises the
validation error instead of appending. -/
theorem auth_gate_amended (m : WorkspaceManager)
    (wid sender role content : String) (md : Option Metadata) (mid : String)
    (now : Nat) (w : Workspace)
    (hfound : dictLookup m.workspaces wid = some w) :
    (m.add_message wid sender role content md mid now = Except.ok (m, none)
      ↔ (sender ≠ "system" ∧ role ≠ "assistant" ∧
          ¬ w.is_participant sender))
    ∧ ((sender = "system" ∨ role = "assistant" ∨ w.is_participant sender) →
        pyStrip content ≠ "" →
        ∃ w' msg,
          w.add_message sender role content md mid now = Except.ok (w', msg)
          ∧ m.add_message wid sender role content md mid now
            = Except.ok
              ({ m with workspaces := dictSet m.workspaces wid w' },
                some msg)
          ∧ msg.content = pyStrip content)
    ∧ ((sender = "system" ∨ role = "assistant" ∨ w.is_participant sender) →
        pyStrip content = "" →
        (m.add_message wid sender role content md mid now).isOk = false) := by
  have hpass_neg : ∀ hp : sender = "system" ∨ role = "assistant" ∨
      w.is_participant sender = true,
      ¬ (sender ≠ "system" ∧ role ≠ "assistant" ∧
        ¬ w.is_participant sender) := by
    rintro (hp | hp | hp) ⟨h1, h2, h3⟩
    · exact h1 hp
    · exact h2 hp
    · exact h3 hp
  refine ⟨⟨?_, ?_⟩, ?_, ?_⟩
  · intro hres
    by_cases hauth : sender ≠ "system" ∧ role ≠ "assistant" ∧
        ¬ w.is_participant sender
    · exact hauth
    · exfalso
      unfold WorkspaceManager.add_message at hres
      rw [hfound] at hres
      simp only [if_neg hauth] at hres
      cases hadd : w.add_message sender role content md mid now with
      | error e =>
          rw [hadd] at hres
          simp at hres
      | ok p =>
          rw [hadd] at hres
          simp at hres
  · intro hauth
    unfold WorkspaceManager.add_message
    rw [hfound]
    simp only [if_pos hauth]
  · intro hp hcontent
    have hcond : ¬ (content = "" ∨ pyStrip content = "") := by
      rintro (hc | hc)
      · exact hcontent (by rw [hc]; exact pyStrip_empty)
      · exact hcontent hc
    cases hadd : w.add_message sender role content md mid now with
    | error e =>
        exfalso
        unfold Workspace.add_message at hadd
        rw [if_neg hcond] at hadd
        simp at hadd
    | ok p =>
        obtain ⟨w', msg⟩ := p
        refine ⟨w', msg, rfl, ?_, ?_⟩
        · unfold WorkspaceManager.add_message
          rw [hfound]
          simp only [if_neg (hpass_neg hp)]
          rw [hadd]
        · unfold Workspace.add_message at hadd
          rw [if_neg hcond] at hadd
          simp only [Except.ok.injEq, Prod.mk.injEq] at hadd
          rw [← hadd.2]
  · intro hp hempty
    have hcond : content = "" ∨ pyStrip content = "" := Or.inr hempty
    have hadd : w.add_message sender role content md mid now
        = Except.error "Message content cannot be empty" := by
      unfold Workspace.add_message
      rw [if_pos hcond]
    unfold WorkspaceManager.add_message
    rw [hfound]
    simp only [if_neg (hpass_neg hp)]
    rw [hadd]
    rfl

/-- Witness for auth_gate_amended: a non-participant sender with an
ordinary user-role message is rejected with an absent result. -/
theorem auth_gate_amended_witness :
    c3Mgr.add_message "W" "bob" "user" "hi" none "m1" 1
      = Except.ok (c3Mgr, none) := by
  have h := auth_gate_amended c3Mgr "W" "bob" "user" "hi" none "m1" 1
    (mkWorkspace "W" "N" "alice") (by decide)
  exact h.1.mpr ⟨by decide, by decide, by decide⟩

/-- Claim C9: a user is reported typing exactly when some presence of
theirs in the workspace has is_typing set and strictly less than
typing_timeout (5) seconds elapsed since typing_started_at, evaluated at
read time.  Wall-clock start times are positive, which the hypothesis
records (time.time() is never 0; a 0 timestamp would be falsy in the
truthiness test of the source). -/
theorem typing_window (st : CWSState) (wid u : String) (now : Nat)
    (hpos : ∀ p ∈ getConns st wid, ∀ t : Nat,
      p.typing_started_at = some t → 0 < t) :
    u ∈ getTypingUsers st wid now ↔
      ∃ p ∈ getConns st wid, p.user_id = u ∧ p.is_typing = true ∧
        ∃ t : Nat, p.typing_started_at = some t ∧ now - t < typing_timeout := by
  unfold getTypingUsers
  rw [List.mem_toFinset, List.mem_map]
  constructor
  · rintro ⟨p, hp, hu⟩
    rw [List.mem_filter] at hp
    obtain ⟨hmem, hpred⟩ := hp
    simp only [decide_eq_true_eq] at hpred
    obtain ⟨hty, htr, hlt⟩ := hpred
    cases hst : p.typing_started_at with
    | none => rw [hst] at htr; simp [optNatTruthy] at htr
    | some t =>
        refine ⟨p, hmem, hu, hty, t, hst, ?_⟩
        rw [hst] at hlt
        simpa using hlt
  · rintro ⟨p, hmem, hu, hty, t, hst, hlt⟩
    refine ⟨p, ?_, hu⟩
    rw [List.mem_filter]
    refine ⟨hmem, ?_⟩
    simp only [decide_eq_true_eq]
    refine ⟨hty, ?_, ?_⟩
    · rw [hst]
      simp only [optNatTruthy, ne_eq, decide_eq_true_eq]
      have := hpos p hmem t hst
      omega
    · rw [hst]
      simpa using hlt

/-- The presence of the typing-expiry scenario: typing since t = 100. -/
def c9Presence : UserPresence :=
  { user_id := "u", workspace_id := "W", socket := 1, is_typing := true,
    typing_started_at := some 100 }

/-- The typing-expiry scenario state. -/
def c9St : CWSState :=
  { connections := [("W", [c9Presence])],
    user_connections := [("u", ["W"])] }

/-- Witness for typing_window: typing at t0 = 100 is reported at 103 and
no longer reported at 106. -/
theorem typing_window_witness :
    "u" ∈ getTypingUsers c9St "W" 103
    ∧ ¬ "u" ∈ getTypingUsers c9St "W" 106 := by
  have hpos : ∀ p ∈ getConns c9St "W", ∀ t : Nat,
      p.typing_started_at = some t → 0 < t := by
    intro p hp t hteq
    have hpe : p = c9Presence := by
      simpa [c9St, getConns, dictLookup] using hp
    rw [hpe] at hteq
    have : (100 : Nat) = t := by
      injection hteq
    omega
  constructor
  · exact (typing_window c9St "W" "u" 103 hpos).mpr
      ⟨c9Presence, by simp [c9St, getConns, dictLookup], rfl, rfl, 100, rfl,
        by decide⟩
  · intro h
    have h2 := (typing_window c9St "W" "u" 106 hpos).mp h
    obtain ⟨p, hp, hu, hty, t, ht, hlt⟩ := h2
    have hpe : p = c9Presence := by
      simpa [c9St, getConns, dictLookup] using hp
    rw [hpe] at ht
    have : t = 100 := by
      injection ht with h3
      exact h3.symm
    rw [this] at hlt
    simp [typing_timeout] at hlt

theorem dictLookup_remove_self (d : List (String × α)) (k : String) :
    dictLookup (dictRemove d k) k = none := by
  induction d with
  | nil => rfl
  | cons kv tl ih =>
      unfold dictRemove at ih ⊢
      by_cases hk : kv.1 = k
      · simp only [List.filter_cons, hk]
        simpa using ih
      · simp only [List.filter_cons]
        have : (decide (kv.1 ≠ k)) = true := by simpa using hk
        rw [this]
        simp only [dictLookup, hk, if_false, if_neg hk]
        exact ih

theorem dictLookup_eq_none_of_not_contains {d : List (String × α)}
    {k : String} (h : ¬ dictContains d k = true) : dictLookup d k = none := by
  unfold dictContains at h
  cases he : dictLookup d k with
  | none => rfl
  | some v => rw [he] at h; simp at h

theorem getConns_registryRemove (st : CWSState) (wid uid : String)
    (sid : Nat) :
    getConns (registryRemove st wid uid sid) wid =
      (getConns st wid).filter
        (fun p => ¬ (p.user_id = uid ∧ p.socket = sid)) := by
  have hconn : (registryRemove st wid uid sid).connections =
      (if dictContains st.connections wid = true then
        (if (getConns st wid).filter
            (fun p => ¬ (p.user_id = uid ∧ p.socket = sid)) = [] then
          dictRemove st.connections wid
        else
          dictSet st.connections wid ((getConns st wid).filter
            (fun p => ¬ (p.user_id = uid ∧ p.socket = sid))))
      else st.connections) := by
    unfold registryRemove
    by_cases h1 : dictContains st.connections wid = true <;>
      by_cases h2 : (getConns st wid).filter
        (fun p => ¬ (p.user_id = uid ∧ p.socket = sid)) = [] <;>
      simp only [h1, h2, if_true, if_false, Bool.false_eq_true] <;>
      split <;> (try split) <;> (try split) <;> rfl
  unfold getConns
  rw [hconn]
  by_cases h1 : dictContains st.connections wid = true
  · rw [if_pos h1]
    by_cases h2 : (getConns st wid).filter
        (fun p => ¬ (p.user_id = uid ∧ p.socket = sid)) = []
    · rw [if_pos h2, dictLookup_remove_self]
      unfold getConns at h2
      rw [h2]
      rfl
    · rw [if_neg h2, dictLookup_set_self]
      rfl
  · rw [if_neg h1, dictLookup_eq_none_of_not_contains h1]
    rfl

theorem pruneLoop_zero (sendOk : Nat → Bool) (st : CWSState)
    (wid : String) (ps : List UserPresence) :
    pruneLoop sendOk 0 st wid ps = st := by
  cases ps <;> rfl

theorem pruneLoop_nil (sendOk : Nat → Bool) (fuel : Nat) (st : CWSState)
    (wid : String) :
    pruneLoop sendOk fuel st wid [] = st := by
  cases fuel <;> rfl

theorem pruneLoop_cons (sendOk : Nat → Bool) (f : Nat) (st : CWSState)
    (wid : String) (p : UserPresence) (rest : List UserPresence) :
    pruneLoop sendOk (f + 1) st wid (p :: rest)
      = pruneLoop sendOk f (disconnect sendOk f st wid p.user_id p.socket)
          wid rest := by
  rfl

theorem disconnect_mono_of (sendOk : Nat → Bool) (fuel : Nat)
    (hprune : ∀ ps st wid p,
      p ∈ getConns (pruneLoop sendOk fuel st wid ps) wid →
        p ∈ getConns st wid) :
    ∀ st wid uid sid p,
      p ∈ getConns (disconnect sendOk fuel st wid uid sid) wid →
        p ∈ getConns st wid := by
  intro st wid uid sid p hp
  unfold disconnect at hp
  by_cases hg : ¬ dictContains
      (registryRemove st wid uid sid).connections wid = true
  · rw [if_pos hg] at hp
    rw [getConns_registryRemove] at hp
    exact List.mem_of_mem_filter hp
  · rw [if_neg hg] at hp
    have h2 := hprune _ _ _ _ hp
    rw [getConns_registryRemove] at h2
    exact List.mem_of_mem_filter h2

/-- The disconnect cascade never adds connections: membership in the
workspace list only shrinks. -/
theorem pruneLoop_mono (sendOk : Nat → Bool) : ∀ fuel : Nat,
    ∀ ps st wid p,
      p ∈ getConns (pruneLoop sendOk fuel st wid ps) wid →
        p ∈ getConns st wid := by
  intro fuel
  induction fuel with
  | zero =>
      intro ps st wid p hp
      rw [pruneLoop_zero] at hp
      exact hp
  | succ f ih =>
      intro ps st wid p hp
      cases ps with
      | nil =>
          rw [pruneLoop_nil] at hp
          exact hp
      | cons q rest =>
          rw [pruneLoop_cons] at hp
          exact disconnect_mono_of sendOk f ih _ _ _ _ _ (ih _ _ _ _ hp)

theorem filter_filter_of_imp (l : List α) (a b : α → Bool)
    (h : ∀ x ∈ l, b x = true → a x = true) :
    (l.filter a).filter b = l.filter b := by
  induction l with
  | nil => rfl
  | cons x xs ih =>
      have ih' := ih (fun y hy => h y (List.mem_cons_of_mem x hy))
      by_cases ha : a x = true
      · simp only [List.filter_cons, ha, if_true]
        by_cases hb : b x = true
        · simp [List.filter_cons, hb, ih']
        · simp only [Bool.not_eq_true] at hb
          simp [List.filter_cons, hb, ih']
      · have hb : ¬ b x = true := fun hbx =>
          ha (h x (List.mem_cons_self x xs) hbx)
        simp only [List.filter_cons]
        simp only [Bool.not_eq_true] at ha hb
        simp [ha, hb, ih']

theorem disconnect_ok_filter_of (sendOk : Nat → Bool) (fuel : Nat)
    (hprune : ∀ ps st wid, (∀ q ∈ ps, sendOk q.socket = false) →
      (getConns (pruneLoop sendOk fuel st wid ps) wid).filter
          (fun p => sendOk p.socket)
        = (getConns st wid).filter (fun p => sendOk p.socket)) :
    ∀ st wid uid sid, sendOk sid = false →
      (getConns (disconnect sendOk fuel st wid uid sid) wid).filter
          (fun p => sendOk p.socket)
        = (getConns st wid).filter (fun p => sendOk p.socket) := by
  intro st wid uid sid hfail
  have hbase :
      (getConns (registryRemove st wid uid sid) wid).filter
        (fun p => sendOk p.socket)
      = (getConns st wid).filter (fun p => sendOk p.socket) := by
    rw [getConns_registryRemove]
    exact filter_filter_of_imp _ _ _ (fun x hx hok => by
      simp only [decide_eq_true_eq]
      rintro ⟨hu, hs⟩
      rw [hs] at hok
      rw [hok] at hfail
      exact absurd hfail (by simp))
  unfold disconnect
  by_cases hg : ¬ dictContains
      (registryRemove st wid uid sid).connections wid = true
  · rw [if_pos hg]
    exact hbase
  · rw [if_neg hg]
    rw [hprune _ _ _ (fun q hq => by
      rw [List.mem_filter] at hq
      simpa using hq.2)]
    exact hbase

/-- The disconnect cascade preserves the subsequence of connections whose
sends succeed, when every disconnected key comes from a failing socket. -/
theorem pruneLoop_ok_filter (sendOk : Nat → Bool) : ∀ fuel : Nat,
    ∀ ps st wid, (∀ q ∈ ps, sendOk q.socket = false) →
      (getConns (pruneLoop sendOk fuel st wid ps) wid).filter
          (fun p => sendOk p.socket)
        = (getConns st wid).filter (fun p => sendOk p.socket) := by
  intro fuel
  induction fuel with
  | zero =>
      intro ps st wid hall
      rw [pruneLoop_zero]
  | succ f ih =>
      intro ps st wid hall
      cases ps with
      | nil => rw [pruneLoop_nil]
      | cons q rest =>
          rw [pruneLoop_cons,
            ih _ _ _ (fun x hx => hall x (List.mem_cons_of_mem q hx)),
            disconnect_ok_filter_of sendOk f ih _ _ _ _
              (hall q (List.mem_cons_self q rest))]

/-- A disconnect removes every presence matching its (user, socket) key
from the workspace list, and the cascade never brings it back. -/
theorem disconnect_removes_key (sendOk : Nat → Bool) (fuel : Nat)
    (st : CWSState) (wid uid : String) (sid : Nat) (p : UserPresence)
    (hp : p ∈ getConns (disconnect sendOk fuel st wid uid sid) wid) :
    ¬ (p.user_id = uid ∧ p.socket = sid) := by
  unfold disconnect at hp
  by_cases hg : ¬ dictContains
      (registryRemove st wid uid sid).connections wid = true
  · rw [if_pos hg] at hp
    rw [getConns_registryRemove] at hp
    rw [List.mem_filter] at hp
    have h2 := hp.2
    simp only [decide_eq_true_eq] at h2
    exact h2
  · rw [if_neg hg] at hp
    have hm := pruneLoop_mono sendOk fuel _ _ _ _ hp
    rw [getConns_registryRemove] at hm
    rw [List.mem_filter] at hm
    have h2 := hm.2
    simp only [decide_eq_true_eq] at h2
    exact h2

/-- With enough fuel, every presence listed for the cleanup loop is absent
afterwards (keyed by its user and socket). -/
theorem pruneLoop_removes (sendOk : Nat → Bool) : ∀ fuel : Nat,
    ∀ ps st wid x, x ∈ ps → ps.length ≤ fuel →
      ∀ p, p ∈ getConns (pruneLoop sendOk fuel st wid ps) wid →
        ¬ (p.user_id = x.user_id ∧ p.socket = x.socket) := by
  intro fuel
  induction fuel with
  | zero =>
      intro ps st wid x hx hlen
      cases ps with
      | nil => exact absurd hx (List.not_mem_nil x)
      | cons q rest => simp at hlen
  | succ f ih =>
      intro ps st wid x hx hlen p hp
      cases ps with
      | nil => exact absurd hx (List.not_mem_nil x)
      | cons q rest =>
          rw [pruneLoop_cons] at hp
          rcases List.mem_cons.mp hx with hxq | hxr
          · subst hxq
            have h2 := pruneLoop_mono sendOk f _ _ _ _ hp
            exact disconnect_removes_key sendOk f st wid x.user_id x.socket
              p h2
          · have hlen2 : rest.length ≤ f := by
              simp only [List.length_cons] at hlen
              omega
            exact ih rest _ _ x hxr hlen2 p hp

/-- Claim C6 amended: a broadcast with no excluded user delivers the
payload to exactly the connections whose sends succeed, never aborts the
fan-out, prunes every failing connection from the registry, and afterwards
get_online_users is exactly the user set of the surviving (non-failing)
connections — the user of a failing connection stays online when that user
keeps another live connection. -/
theorem broadcast_prune_amended (sendOk : Nat → Bool) (st : CWSState)
    (wid : String) :
    (broadcastMessage sendOk st wid).1
      = (getConns st wid).filter (fun p => sendOk p.socket)
    ∧ getConns (broadcastMessage sendOk st wid).2 wid
      = (getConns st wid).filter (fun p => sendOk p.socket)
    ∧ getOnlineUsers (broadcastMessage sendOk st wid).2 wid
      = (((getConns st wid).filter (fun p => sendOk p.socket)).map
          (fun p => p.user_id)).toFinset := by
  have hmain : (broadcastMessage sendOk st wid).1
      = (getConns st wid).filter (fun p => sendOk p.socket)
    ∧ getConns (broadcastMessage sendOk st wid).2 wid
      = (getConns st wid).filter (fun p => sendOk p.socket) := by
    unfold broadcastMessage
    by_cases hc : ¬ dictContains st.connections wid = true
    · rw [if_pos hc]
      have : getConns st wid = [] := by
        unfold getConns
        rw [dictLookup_eq_none_of_not_contains hc]
        rfl
      rw [this]
      exact ⟨rfl, rfl⟩
    · rw [if_neg hc]
      refine ⟨rfl, ?_⟩
      have hok : (getConns (pruneLoop sendOk
            ((getConns st wid).length + 1) st wid
            ((getConns st wid).filter (fun p => ¬ sendOk p.socket)))
            wid).filter (fun p => sendOk p.socket)
          = (getConns st wid).filter (fun p => sendOk p.socket) :=
        pruneLoop_ok_filter sendOk _ _ _ _ (fun q hq => by
          rw [List.mem_filter] at hq
          simpa using hq.2)
      have hall : ∀ p ∈ getConns (pruneLoop sendOk
            ((getConns st wid).length + 1) st wid
            ((getConns st wid).filter (fun p => ¬ sendOk p.socket)))
            wid, sendOk p.socket = true := by
        intro p hp
        by_contra hfail
        have hmem := pruneLoop_mono sendOk _ _ _ _ _ hp
        have hin : p ∈ (getConns st wid).filter
            (fun q => ¬ sendOk q.socket) := by
          rw [List.mem_filter]
          exact ⟨hmem, by simpa using hfail⟩
        have hlen : ((getConns st wid).filter
            (fun q => ¬ sendOk q.socket)).length
            ≤ (getConns st wid).length + 1 :=
          Nat.le_succ_of_le (List.length_filter_le _ _)
        exact pruneLoop_removes sendOk _ _ _ _ p hin hlen p hp ⟨rfl, rfl⟩
      calc getConns (pruneLoop sendOk
            ((getConns st wid).length + 1) st wid
            ((getConns st wid).filter (fun p => ¬ sendOk p.socket))) wid
          = (getConns (pruneLoop sendOk
            ((getConns st wid).length + 1) st wid
            ((getConns st wid).filter (fun p => ¬ sendOk p.socket)))
            wid).filter (fun p => sendOk p.socket) :=
            (List.filter_eq_self.mpr (fun p hp => hall p hp)).symm
        _ = (getConns st wid).filter (fun p => sendOk p.socket) := hok
  refine ⟨hmain.1, hmain.2, ?_⟩
  unfold getOnlineUsers
  rw [hmain.2]

/-- Failing presence of the C6 counterexample: user u on socket 1. -/
def c6Fail : UserPresence :=
  { user_id := "u", workspace_id := "W", socket := 1 }

/-- Healthy presence of the C6 counterexample: the same user on socket 2. -/
def c6Ok : UserPresence :=
  { user_id := "u", workspace_id := "W", socket := 2 }

/-- The C6 counterexample state: one user with two live sockets. -/
def c6St : CWSState :=
  { connections := [("W", [c6Fail, c6Ok])],
    user_connections := [("u", ["W"])] }

/-- Sends succeed only on socket 2 in the C6 counterexample. -/
def c6SendOk (s : Nat) : Bool :=
  s = 2

/-- Claim C6 counterexample: one connection (M = 1) raises on send, it is
pruned from the registry, yet its user is still present in
get_online_users afterwards because the same user holds a second, healthy
connection — refuting "all M are subsequently absent from
get_online_users". -/
theorem broadcast_prune_counterexample :
    ((getConns c6St "W").filter (fun p => ¬ c6SendOk p.socket)).length = 1
    ∧ getConns (broadcastMessage c6SendOk c6St "W").2 "W" = [c6Ok]
    ∧ "u" ∈ getOnlineUsers (broadcastMessage c6SendOk c6St "W").2 "W" := by
  decide
